import Mathlib

/-!
Shallow embedding of the canvas animation engine of `src/frontend/src/App.js`:
the `NeuralNetworkBackground` component (class `Node`, its `update`, the
per-frame `animate` with its pairwise edge pass) and the `ParticleSystem`
component (class `Particle`, its `update`, `handleMouseMove`, and the
filter-based `animate`).

JavaScript numbers are modelled as elements of a linear ordered field
(instantiated with `ℚ` for executable witnesses and with `ℝ` where the real
square root is needed).  The library functions `Math.sin` and `Math.sqrt`,
and the constant `Math.PI`, never influence control flow of the state
update, so they are passed as explicit parameters (`msin`, `msqrt`, `mpi`);
`Math.random()` is modelled as a stream `rand : ℕ → α` consumed at an
explicit index, exactly where the source calls it.
-/

namespace App

/-! ## Particle system (`ParticleSystem`, App.js lines 144-255) -/

/-- Source `class Particle` (App.js 161-171): fields in constructor order.
`x`/`y` are the constructor arguments; the random fields are filled from
`Math.random()` by `newParticle` below. -/
structure Particle where
  x : ℚ
  y : ℚ
  vx : ℚ
  vy : ℚ
  life : ℚ
  decay : ℚ
  size : ℚ
  sparkle : ℚ
  deriving Repr, DecidableEq

/-- Source `Particle` constructor body (App.js 162-171): given position arguments
`x y` and the five `Math.random()` draws `r1 .. r5` made in the body,
`vx = (r1 - 0.5) * 2`, `vy = (r2 - 0.5) * 2`, `life = 1`,
`decay = r3 * 0.02 + 0.01`, `size = r4 * 3 + 1`, `sparkle = r5 * 2 * π`. -/
def newParticle (mpi x y r1 r2 r3 r4 r5 : ℚ) : Particle :=
  { x := x
    y := y
    vx := (r1 - 1/2) * 2
    vy := (r2 - 1/2) * 2
    life := 1
    decay := r3 * (1/50) + 1/100
    size := r4 * 3 + 1
    sparkle := r5 * 2 * mpi }

/-- Source `Particle.update` (App.js 173-179): `x += vx; y += vy; life -= decay;
sparkle += 0.1; size *= 0.99`. -/
def Particle.update (p : Particle) : Particle :=
  { p with
    x := p.x + p.vx
    y := p.y + p.vy
    life := p.life - p.decay
    sparkle := p.sparkle + 1/10
    size := p.size * (99/100) }

/-- The filter predicate of the particle `animate` (App.js 230):
`particle.life > 0 && particle.size > 0.1`. -/
def isAlive (p : Particle) : Bool :=
  decide (0 < p.life) && decide ((1:ℚ)/10 < p.size)

/-- One frame of the particle `animate` callback (App.js 227-231).  The
source runs a single `filter` whose predicate first mutates the particle
(`update`), then draws it (`draw`), and only then tests the keep
condition.  The result is the pair (surviving particles, particles as
passed to `draw` this frame, in draw order). -/
def animateStep : List Particle → List Particle × List Particle
  | [] => ([], [])
  | p :: rest =>
    let q := Particle.update p
    let s := animateStep rest
    (if isAlive q then q :: s.1 else s.1, q :: s.2)

/-- The active particle set after `k` frames of `animate`, starting from
`ps` (the `particlesRef.current` list). -/
def psRun (ps : List Particle) : ℕ → List Particle
  | 0 => ps
  | k + 1 => (animateStep (psRun ps k)).1

/-- Iterate (`k`-fold) of `Particle.update` (the history of one particle that
is processed by `k` consecutive frames). -/
def updateN : ℕ → Particle → Particle
  | 0, p => p
  | k + 1, p => (updateN k p).update

/-- The body of the `for (let i = 0; i < 3; i++)` loop of `handleMouseMove`
(App.js 213-222), consuming 7 `Math.random()` draws per iteration: two in
the argument jitter `clientX + (Math.random() - 0.5) * 20` (and `clientY`
likewise), five in the `Particle` constructor body. -/
def spawnLoop (mpi : ℚ) (rand : ℕ → ℚ) : ℕ → ℕ → ℚ → ℚ → List Particle → List Particle × ℕ
  | 0, k, _, _, ps => (ps, k)
  | i + 1, k, cx, cy, ps =>
    spawnLoop mpi rand i (k + 7) cx cy
      (ps ++ [newParticle mpi (cx + (rand k - 1/2) * 20) (cy + (rand (k+1) - 1/2) * 20)
        (rand (k+2)) (rand (k+3)) (rand (k+4)) (rand (k+5)) (rand (k+6))])

/-- Source `handleMouseMove` (App.js 213-222): pushes 3 new particles at the
pointer position `(cx, cy)` with jitter, onto the current list `ps`. -/
def handleMouseMove (mpi : ℚ) (rand : ℕ → ℚ) (k : ℕ) (cx cy : ℚ)
    (ps : List Particle) : List Particle × ℕ :=
  spawnLoop mpi rand 3 k cx cy ps

/-! ## Ambient field (`NeuralNetworkBackground`, App.js lines 9-141)

Generic over a linear ordered field `α` so that the same definitions serve
both the executable instance `α = ℚ` and the instance `α = ℝ` used where
the true Euclidean distance (`Real.sqrt`) is analysed. -/

variable {α : Type*} [LinearOrderedField α]

/-- Source `class Node` (App.js 26-34): position, velocity, energy, pulse phase. -/
structure Node (α : Type*) where
  x : α
  y : α
  vx : α
  vy : α
  energy : α
  pulse : α
  deriving Repr, DecidableEq

/-- Source `Node` constructor body (App.js 27-34): given the position arguments and
the four `Math.random()` draws `r1 .. r4` made in the body,
`vx = (r1 - 0.5) * 0.5`, `vy = (r2 - 0.5) * 0.5`, `energy = r3`,
`pulse = r4 * π * 2`. -/
def newNode (mpi x y r1 r2 r3 r4 : α) : Node α :=
  { x := x
    y := y
    vx := (r1 - 1/2) * (1/2)
    vy := (r2 - 1/2) * (1/2)
    energy := r3
    pulse := r4 * mpi * 2 }

/-- Source `Node.update` (App.js 36-47) against canvas bounds `w × h`:
`x += vx; y += vy; pulse += 0.02; energy = |sin(pulse)|;` then the velocity
sign flips on any axis whose position left `[0,w]` resp. `[0,h]`, and the
position is clamped back into the bounds. -/
def Node.update (msin : α → α) (w h : α) (n : Node α) : Node α :=
  let x := n.x + n.vx
  let y := n.y + n.vy
  let pulse := n.pulse + 1/50
  let energy := |msin pulse|
  let vx := if x < 0 ∨ w < x then -n.vx else n.vx
  let vy := if y < 0 ∨ h < y then -n.vy else n.vy
  { x := max 0 (min w x)
    y := max 0 (min h y)
    vx := vx
    vy := vy
    energy := energy
    pulse := pulse }

/-- Iterate (`k`-fold) of `Node.update`: the state of one node after `k`
ticks. -/
def tickN (msin : α → α) (w h : α) : ℕ → Node α → Node α
  | 0, n => n
  | k + 1, n => (tickN msin w h k n).update msin w h

/-- Source `resizeCanvas` (App.js 18-21 and identically 153-156): the canvas
bounds are set to the raw viewport dimensions, with no further
adjustment. -/
def resizeCanvas (innerWidth innerHeight : α) : α × α :=
  (innerWidth, innerHeight)

/-- The squared distance `Math.pow(ax - bx, 2) + Math.pow(ay - by, 2)`
under the `Math.sqrt` call of App.js 91-93. -/
def dist2 (a b : Node α) : α :=
  (a.x - b.x) ^ 2 + (a.y - b.y) ^ 2

/-- Average energy `(nodeA.energy + nodeB.energy) / 2` (App.js 97). -/
def avgEnergy (a b : Node α) : α :=
  (a.energy + b.energy) / 2

/-- The stroke drawn for one node pair by the edge pass: start point,
jittered quadratic control point, end point, and the three style scalars
set in App.js 100-102. -/
structure EdgeCmd (α : Type*) where
  x1 : α
  y1 : α
  midX : α
  midY : α
  x2 : α
  y2 : α
  globalAlpha : α
  strokeAlpha : α
  lineWidth : α
  deriving Repr, DecidableEq

/-- The body of the pairwise edge loop (App.js 89-114) for one pair
`(a, b)`, with `r1 r2` the two `Math.random()` draws used for control-point
jitter: if `Math.sqrt(dist2) < 150`, an edge is emitted with
`globalAlpha = opacity * energy * 0.5`, stroke alpha `opacity * energy` and
`lineWidth = energy * 2`, where `opacity = (150 - distance) / 150` and
`energy` is the average energy; otherwise nothing is drawn. -/
def pairEdge (msqrt : α → α) (r1 r2 : α) (a b : Node α) : Option (EdgeCmd α) :=
  let distance := msqrt (dist2 a b)
  if distance < 150 then
    let opacity := (150 - distance) / 150
    let energy := avgEnergy a b
    some
      { x1 := a.x
        y1 := a.y
        midX := (a.x + b.x) / 2 + (r1 - 1/2) * 10
        midY := (a.y + b.y) / 2 + (r2 - 1/2) * 10
        x2 := b.x
        y2 := b.y
        globalAlpha := opacity * energy * (1/2)
        strokeAlpha := opacity * energy
        lineWidth := energy * 2 }
  else none

/-- A draw call of the ambient `animate` frame: either a node glyph
(App.js 49-64, position and energy determine the glow) or an edge stroke. -/
inductive DrawCmd (α : Type*) where
  | node (x y energy : α)
  | edge (e : EdgeCmd α)
  deriving Repr, DecidableEq

/-- Inner edge loop (App.js 88): edges from node `a` to each later node,
threading the `Math.random()` stream index (two draws per drawn edge,
consumed only when the distance test passes). -/
def edgesFrom (msqrt : α → α) (rand : ℕ → α) (a : Node α) :
    List (Node α) → ℕ → List (DrawCmd α) × ℕ
  | [], k => ([], k)
  | b :: rest, k =>
    match pairEdge msqrt (rand k) (rand (k+1)) a b with
    | some e =>
      let s := edgesFrom msqrt rand a rest (k + 2)
      (DrawCmd.edge e :: s.1, s.2)
    | none => edgesFrom msqrt rand a rest k

/-- Outer edge loop (App.js 87): all unordered pairs `i < j` in order. -/
def edgePass (msqrt : α → α) (rand : ℕ → α) :
    List (Node α) → ℕ → List (DrawCmd α) × ℕ
  | [], k => ([], k)
  | a :: rest, k =>
    let s1 := edgesFrom msqrt rand a rest k
    let s2 := edgePass msqrt rand rest s1.2
    (s1.1 ++ s2.1, s2.2)

/-- One frame of the ambient `animate` callback (App.js 76-119): every node
is updated and drawn (App.js 79-82), then the edge pass runs over the
updated nodes.  Returns the new node list, the frame's draw calls, and the
advanced random-stream index. -/
def ambientFrame (msin msqrt : α → α) (rand : ℕ → α) (w h : α)
    (nodes : List (Node α)) (k : ℕ) :
    List (Node α) × List (DrawCmd α) × ℕ :=
  let updated := nodes.map (Node.update msin w h)
  let nodeCmds := updated.map fun n => DrawCmd.node n.x n.y n.energy
  let s := edgePass msqrt rand updated k
  (updated, nodeCmds ++ s.1, s.2)

/-- Run of `N` frames of the ambient `animate` loop, threading the node list and
the random-stream index. -/
def ambientRun (msin msqrt : α → α) (rand : ℕ → α) (w h : α) :
    ℕ → List (Node α) → ℕ → List (Node α) × ℕ
  | 0, nodes, k => (nodes, k)
  | n + 1, nodes, k =>
    let s := ambientFrame msin msqrt rand w h nodes k
    ambientRun msin msqrt rand w h n s.1 s.2.2

/-! ## Concrete instances used to exercise the theorems -/

/-- A particle one frame away from death: `life = 1/200`, `decay = 1/100`. -/
def pDying : Particle :=
  { x := 50, y := 50, vx := 0, vy := 0, life := 1/200, decay := 1/100, size := 1, sparkle := 0 }

/-- A freshly spawned particle at `(50, 50)` with all random draws `0`
(so `decay = 0.01`, `size = 1`). -/
def pC3 : Particle := newParticle 0 50 50 0 0 0 0 0

/-- A freshly spawned particle at `(10, 10)` with all random draws `1/2`. -/
def pC4 : Particle := newParticle 0 10 10 (1/2) (1/2) (1/2) (1/2) (1/2)

/-- A freshly spawned particle at `(50, 50)` with minimal decay `0.01`. -/
def pC8 : Particle := newParticle 0 50 50 0 0 0 0 0

/-- A burst of three particles spawned at `(50, 50)` with decays
`0.01`, `0.02` and `0.0298`, all inside the source's decay range. -/
def burstC8 : List Particle :=
  [newParticle 0 50 50 0 0 0 0 0,
   newParticle 0 50 50 1 0 (1/2) 0 0,
   newParticle 0 50 50 0 1 (99/100) 0 0]

/-- A node heading out of the right boundary of a `100 × 100` canvas. -/
def nC1 : Node ℚ := { x := 99, y := 0, vx := 3, vy := -2, energy := 0, pulse := 0 }

/-- A motionless node strictly inside a `100 × 100` canvas with phase `0`. -/
def nC6 : Node ℚ := { x := 5, y := 5, vx := 0, vy := 0, energy := 0, pulse := 0 }

/-- A node with per-axis speed `1/8` on both axes. -/
def nC10 : Node ℚ := { x := 0, y := 0, vx := 1/8, vy := -1/8, energy := 0, pulse := 0 }

/-- A real-valued node at the origin with energy `1`. -/
def aE : Node ℝ := { x := 0, y := 0, vx := 0, vy := 0, energy := 1, pulse := 0 }

/-- A real-valued node at the origin with energy `1` (coincides with `aE`,
giving an edge of Euclidean length `0`). -/
def bE0 : Node ℝ := { x := 0, y := 0, vx := 0, vy := 0, energy := 1, pulse := 0 }

/-- A real-valued node at `(45, 60)` with energy `1`: Euclidean distance
`75` from the origin. -/
def bE75 : Node ℝ := { x := 45, y := 60, vx := 0, vy := 0, energy := 1, pulse := 0 }

/-- A real-valued node at `(3, 4)` with energy `1`: Euclidean distance `5`
from the origin. -/
def bE5 : Node ℝ := { x := 3, y := 4, vx := 0, vy := 0, energy := 1, pulse := 0 }

/-! ## Helper lemmas -/

theorem isAlive_iff (p : Particle) :
    isAlive p = true ↔ 0 < p.life ∧ (1:ℚ)/10 < p.size := by
  simp [isAlive]

theorem animateStep_fst (ps : List Particle) :
    (animateStep ps).1 = (ps.map Particle.update).filter isAlive := by
  induction ps with
  | nil => rfl
  | cons p rest ih => simp [animateStep, List.filter_cons, ih]

theorem animateStep_snd (ps : List Particle) :
    (animateStep ps).2 = ps.map Particle.update := by
  induction ps with
  | nil => rfl
  | cons p rest ih => simp [animateStep, ih]

theorem updateN_decay (k : ℕ) (p : Particle) : (updateN k p).decay = p.decay := by
  induction k with
  | zero => rfl
  | succ k ih => exact ih

theorem updateN_life (k : ℕ) (p : Particle) :
    (updateN k p).life = p.life - (k : ℚ) * p.decay := by
  induction k with
  | zero => simp [updateN]
  | succ k ih =>
    show (updateN k p).life - (updateN k p).decay = _
    rw [ih, updateN_decay]
    push_cast
    ring

theorem psRun_alive (ps : List Particle) (k : ℕ) (q : Particle)
    (hq : q ∈ psRun ps (k + 1)) : 0 < q.life ∧ (1:ℚ)/10 < q.size := by
  have h1 : q ∈ (animateStep (psRun ps k)).1 := hq
  rw [animateStep_fst] at h1
  exact (isAlive_iff q).mp (List.of_mem_filter h1)

theorem mem_psRun (ps : List Particle) :
    ∀ (k : ℕ) (q : Particle), q ∈ psRun ps k → ∃ p ∈ ps, q = updateN k p := by
  intro k
  induction k with
  | zero => exact fun q hq => ⟨q, hq, rfl⟩
  | succ k ih =>
    intro q hq
    have h1 : q ∈ (animateStep (psRun ps k)).1 := hq
    rw [animateStep_fst] at h1
    obtain ⟨r, hr, rfl⟩ := List.mem_map.mp (List.mem_of_mem_filter h1)
    obtain ⟨p, hp, rfl⟩ := ih r hr
    exact ⟨p, hp, rfl⟩

theorem jitter_abs (c r : ℚ) (h0 : 0 ≤ r) (h1 : r < 1) :
    |c + (r - 1/2) * 20 - c| ≤ 10 := by
  rw [abs_le]
  constructor <;> linarith

/-! ## Claims -/

/-- C4: after each cursor-spray tick, a particle is removed if and only if
its updated `life ≤ 0` or updated `size ≤ 0.1` (the survivors are exactly
the filter of the updated list), the relative order among survivors is
preserved (the survivor list is a sublist of the updated list), the size
shrinks by the factor `0.99` each tick, and every surviving particle's
size is at most its size before the tick. -/
theorem c4_filter_in_place (ps : List Particle) :
    (animateStep ps).1 = (ps.map Particle.update).filter isAlive ∧
    (animateStep ps).1.Sublist (ps.map Particle.update) ∧
    (∀ p : Particle, p.update.size = p.size * (99/100)) ∧
    (∀ p ∈ ps, isAlive p.update = true → p.update.size ≤ p.size) := by
  refine ⟨animateStep_fst ps, ?_, fun p => rfl, ?_⟩
  · rw [animateStep_fst]
    exact List.filter_sublist _
  · intro p _ hal
    rw [isAlive_iff] at hal
    have h2 : (1:ℚ)/10 < p.size * (99/100) := hal.2
    show p.size * (99/100) ≤ p.size
    linarith

/-- Witness for C4 at the concrete particle `pC4`. -/
theorem c4_witness :
    (animateStep [pC4]).1 = ([pC4].map Particle.update).filter isAlive ∧
    pC4.update.size ≤ pC4.size := by
  obtain ⟨h1, _, _, h4⟩ := c4_filter_in_place [pC4]
  exact ⟨h1, h4 pC4 (by simp) (by norm_num [isAlive, pC4, newParticle, Particle.update])⟩

/-- C3 counterexample: it is not the case that every particle passed to
`draw` is outside the removal condition.  In the frame acting on `pDying`
(life `1/200`, decay `1/100`), the updated particle has `life ≤ 0` and is
nevertheless drawn: the source's `filter` callback draws the particle
before testing the keep condition, so culling does not happen strictly
before rendering. -/
theorem c3_counterexample :
    ¬ ∀ (ps : List Particle), ∀ q ∈ (animateStep ps).2,
        0 < q.life ∧ (1:ℚ)/10 < q.size := by
  intro hcl
  have hmem : pDying.update ∈ (animateStep [pDying]).2 := by
    rw [animateStep_snd]
    simp
  have hpos := (hcl [pDying] pDying.update hmem).1
  exact absurd hpos (by norm_num [pDying, Particle.update])

/-- C3 (amended): each frame draws exactly the updated particles (so a
particle is drawn once more in the frame in which it dies), a particle's
life is non-increasing across ticks whenever its decay is non-negative,
every particle that survives the cull has `life > 0` and `size > 0.1`, and
every particle drawn in a later frame is the update of a particle that
survived the previous frame's cull — so a removed particle is never
rendered again. -/
theorem c3_cull_after_render (ps : List Particle) (k : ℕ) :
    (animateStep ps).2 = ps.map Particle.update ∧
    (∀ p : Particle, 0 ≤ p.decay → p.update.life ≤ p.life) ∧
    (∀ q ∈ (animateStep ps).1, 0 < q.life ∧ (1:ℚ)/10 < q.size) ∧
    (∀ q ∈ (animateStep (psRun ps (k + 1))).2,
      ∃ r ∈ (animateStep (psRun ps k)).1, q = r.update) := by
  refine ⟨animateStep_snd ps, ?_, ?_, ?_⟩
  · intro p hd
    show p.life - p.decay ≤ p.life
    linarith
  · intro q hq
    rw [animateStep_fst] at hq
    exact (isAlive_iff q).mp (List.of_mem_filter hq)
  · intro q hq
    rw [animateStep_snd] at hq
    obtain ⟨r, hr, rfl⟩ := List.mem_map.mp hq
    exact ⟨r, hr, rfl⟩

/-- Witness for C3 (amended) at the concrete particle `pC3`. -/
theorem c3_witness :
    (animateStep [pC3]).2 = [pC3.update] ∧ pC3.update.life ≤ pC3.life := by
  obtain ⟨h1, h2, _, _⟩ := c3_cull_after_render [pC3] 0
  refine ⟨?_, h2 pC3 (by norm_num [pC3, newParticle])⟩
  simpa using h1

/-- C8: a particle with initial `life = 1` and decay at least `0.01` has
`life ≤ 0` after 100 ticks, its 100-tick image is absent from the active
set of any run after 100 frames, and a burst consisting only of such
particles leaves the active set empty after 100 frames. -/
theorem c8_burst_gone (ps burst : List Particle) (p : Particle)
    (hp : p.life = 1) (hd : (1:ℚ)/100 ≤ p.decay)
    (hb : ∀ q ∈ burst, q.life = 1 ∧ (1:ℚ)/100 ≤ q.decay) :
    (updateN 100 p).life ≤ 0 ∧
    updateN 100 p ∉ psRun ps 100 ∧
    psRun burst 100 = [] := by
  have key : ∀ q : Particle, q.life = 1 → (1:ℚ)/100 ≤ q.decay →
      (updateN 100 q).life ≤ 0 := by
    intro q h1 h2
    rw [updateN_life]
    push_cast
    linarith
  refine ⟨key p hp hd, ?_, ?_⟩
  · intro hmem
    have hpos := (psRun_alive ps 99 _ hmem).1
    have hneg := key p hp hd
    linarith
  · rw [List.eq_nil_iff_forall_not_mem]
    intro q hq
    have hpos := (psRun_alive burst 99 q hq).1
    obtain ⟨p0, hp0, rfl⟩ := mem_psRun burst 100 q hq
    have hneg := key p0 (hb p0 hp0).1 (hb p0 hp0).2
    linarith

/-- Witness for C8 at the concrete burst `burstC8` and particle `pC8`. -/
theorem c8_witness :
    (updateN 100 pC8).life ≤ 0 ∧
    updateN 100 pC8 ∉ psRun [] 100 ∧
    psRun burstC8 100 = [] :=
  c8_burst_gone [] burstC8 pC8 rfl (by norm_num [pC8, newParticle])
    (by
      intro q hq
      simp only [burstC8, List.mem_cons, List.not_mem_nil, or_false] at hq
      rcases hq with rfl | rfl | rfl <;> exact ⟨rfl, by norm_num [newParticle]⟩)

/-- C9: a pointer-move event appends exactly three new particles to the
active list (leaving the existing particles untouched), each new particle
has `life = 1`, and — whenever every random draw lies in `[0, 1)` — each
new particle sits within `±10` units of the pointer on each axis. -/
theorem c9_spawn_three (mpi : ℚ) (rand : ℕ → ℚ)
    (hr : ∀ n, 0 ≤ rand n ∧ rand n < 1) (k : ℕ) (cx cy : ℚ)
    (ps : List Particle) :
    ∃ p0 p1 p2 : Particle,
      (handleMouseMove mpi rand k cx cy ps).1 = ps ++ [p0, p1, p2] ∧
      p0.life = 1 ∧ p1.life = 1 ∧ p2.life = 1 ∧
      |p0.x - cx| ≤ 10 ∧ |p0.y - cy| ≤ 10 ∧
      |p1.x - cx| ≤ 10 ∧ |p1.y - cy| ≤ 10 ∧
      |p2.x - cx| ≤ 10 ∧ |p2.y - cy| ≤ 10 := by
  refine ⟨newParticle mpi (cx + (rand k - 1/2) * 20) (cy + (rand (k+1) - 1/2) * 20)
      (rand (k+2)) (rand (k+3)) (rand (k+4)) (rand (k+5)) (rand (k+6)),
    newParticle mpi (cx + (rand (k+7) - 1/2) * 20) (cy + (rand (k+8) - 1/2) * 20)
      (rand (k+9)) (rand (k+10)) (rand (k+11)) (rand (k+12)) (rand (k+13)),
    newParticle mpi (cx + (rand (k+14) - 1/2) * 20) (cy + (rand (k+15) - 1/2) * 20)
      (rand (k+16)) (rand (k+17)) (rand (k+18)) (rand (k+19)) (rand (k+20)),
    ?_, rfl, rfl, rfl,
    jitter_abs cx (rand k) (hr k).1 (hr k).2,
    jitter_abs cy (rand (k+1)) (hr (k+1)).1 (hr (k+1)).2,
    jitter_abs cx (rand (k+7)) (hr (k+7)).1 (hr (k+7)).2,
    jitter_abs cy (rand (k+8)) (hr (k+8)).1 (hr (k+8)).2,
    jitter_abs cx (rand (k+14)) (hr (k+14)).1 (hr (k+14)).2,
    jitter_abs cy (rand (k+15)) (hr (k+15)).1 (hr (k+15)).2⟩
  simp [handleMouseMove, spawnLoop, List.append_assoc]

/-- Witness for C9 at pointer position `(50, 50)`, empty particle list, and
the constant random stream `1/2`. -/
theorem c9_witness :
    ∃ p0 p1 p2 : Particle,
      (handleMouseMove 0 (fun _ => (1:ℚ)/2) 0 50 50 []).1 = [] ++ [p0, p1, p2] ∧
      p0.life = 1 ∧ p1.life = 1 ∧ p2.life = 1 ∧
      |p0.x - 50| ≤ 10 ∧ |p0.y - 50| ≤ 10 ∧
      |p1.x - 50| ≤ 10 ∧ |p1.y - 50| ≤ 10 ∧
      |p2.x - 50| ≤ 10 ∧ |p2.y - 50| ≤ 10 :=
  c9_spawn_three 0 (fun _ => 1/2) (fun _ => by norm_num) 0 50 50 []

/-- Clamping to `[0, b]` fixes any point already inside the interval. -/
theorem clamp_of_mem (b t : α) (h0 : 0 ≤ t) (hb : t ≤ b) :
    max 0 (min b t) = t := by
  rw [min_eq_right hb, max_eq_right h0]

/-- C1: after every `Node.update` against non-negative canvas bounds, the
node's position lies within `[0, w] × [0, h]`: the update adds the velocity
to the position and then clamps each axis into the bounds (the clamp form
of the new coordinates is stated explicitly). -/
theorem c1_position_in_bounds (msin : α → α) (w h : α) (n : Node α)
    (hw : 0 ≤ w) (hh : 0 ≤ h) :
    (n.update msin w h).x = max 0 (min w (n.x + n.vx)) ∧
    (n.update msin w h).y = max 0 (min h (n.y + n.vy)) ∧
    0 ≤ (n.update msin w h).x ∧ (n.update msin w h).x ≤ w ∧
    0 ≤ (n.update msin w h).y ∧ (n.update msin w h).y ≤ h := by
  refine ⟨rfl, rfl, le_max_left _ _, ?_, le_max_left _ _, ?_⟩
  · exact max_le hw (min_le_left _ _)
  · exact max_le hh (min_le_left _ _)

/-- Witness for C1 at the concrete node `nC1` (which is about to leave a
`100 × 100` canvas on the right). -/
theorem c1_witness :
    0 ≤ (nC1.update (fun t : ℚ => t) 100 100).x ∧
    (nC1.update (fun t : ℚ => t) 100 100).x ≤ 100 ∧
    0 ≤ (nC1.update (fun t : ℚ => t) 100 100).y ∧
    (nC1.update (fun t : ℚ => t) 100 100).y ≤ 100 := by
  obtain ⟨_, _, h1, h2, h3, h4⟩ :=
    c1_position_in_bounds (fun t : ℚ => t) 100 100 nC1 (by norm_num) (by norm_num)
  exact ⟨h1, h2, h3, h4⟩

/-- C6: one `Node.update` advances the phase accumulator by exactly `0.02`
and sets the energy to `|sin|` of the new phase; the position advances by
exactly the velocity whenever the advanced position stays in bounds, and a
motionless in-bounds node keeps its position. -/
theorem c6_tick_effects (msin : α → α) (w h : α) (n : Node α) :
    (n.update msin w h).pulse = n.pulse + 1/50 ∧
    (n.update msin w h).energy = |msin (n.pulse + 1/50)| ∧
    (0 ≤ n.x + n.vx → n.x + n.vx ≤ w → (n.update msin w h).x = n.x + n.vx) ∧
    (0 ≤ n.y + n.vy → n.y + n.vy ≤ h → (n.update msin w h).y = n.y + n.vy) ∧
    (n.vx = 0 → n.vy = 0 → 0 ≤ n.x → n.x ≤ w → 0 ≤ n.y → n.y ≤ h →
      (n.update msin w h).x = n.x ∧ (n.update msin w h).y = n.y) := by
  refine ⟨rfl, rfl, fun h0 hb => clamp_of_mem w _ h0 hb,
    fun h0 hb => clamp_of_mem h _ h0 hb, ?_⟩
  intro hvx hvy h0x hwx h0y hhy
  constructor
  · show max 0 (min w (n.x + n.vx)) = n.x
    rw [hvx, add_zero]
    exact clamp_of_mem w n.x h0x hwx
  · show max 0 (min h (n.y + n.vy)) = n.y
    rw [hvy, add_zero]
    exact clamp_of_mem h n.y h0y hhy

/-- Witness for C6 at the concrete node `nC6` (zero velocity, phase `0`,
inside a `100 × 100` canvas), with `msin` instantiated by the identity. -/
theorem c6_witness :
    (nC6.update (fun t : ℚ => t) 100 100).pulse = 0 + 1/50 ∧
    (nC6.update (fun t : ℚ => t) 100 100).energy = |(0:ℚ) + 1/50| ∧
    (nC6.update (fun t : ℚ => t) 100 100).x = 5 ∧
    (nC6.update (fun t : ℚ => t) 100 100).y = 5 := by
  obtain ⟨h1, h2, _, _, h5⟩ := c6_tick_effects (fun t : ℚ => t) 100 100 nC6
  obtain ⟨hx, hy⟩ :=
    h5 rfl rfl (by norm_num [nC6]) (by norm_num [nC6]) (by norm_num [nC6]) (by norm_num [nC6])
  exact ⟨h1, h2, hx, hy⟩

/-- C5 counterexample: `resizeCanvas` performs no clamping — resizing the
viewport to `0 × 0` yields bounds `0 × 0`, not the `1 × 1` the claim
asserts. -/
theorem c5_counterexample :
    resizeCanvas (0:ℚ) 0 = (0, 0) ∧ resizeCanvas (0:ℚ) 0 ≠ ((1:ℚ), 1) := by
  refine ⟨rfl, ?_⟩
  intro hcontra
  have h1 : (0:ℚ) = 1 := congrArg Prod.fst hcontra
  norm_num at h1

/-- C5 (amended): `resizeCanvas` stores the raw viewport dimensions, so a
resize from `800 × 600` to `0 × 0` yields bounds `0 × 0` (not `1 × 1`);
nevertheless a subsequent tick completes (the update is a total function
and divides by no bound), and under the degenerate `0 × 0` bounds it clamps
every node's position to the origin. -/
theorem c5_resize_unclamped (msin : α → α) (n : Node α) :
    resizeCanvas (800:α) 600 = (800, 600) ∧
    resizeCanvas (0:α) 0 = (0, 0) ∧
    (n.update msin (resizeCanvas (0:α) 0).1 (resizeCanvas (0:α) 0).2).x = 0 ∧
    (n.update msin (resizeCanvas (0:α) 0).1 (resizeCanvas (0:α) 0).2).y = 0 := by
  refine ⟨rfl, rfl, ?_, ?_⟩
  · show max 0 (min 0 (n.x + n.vx)) = 0
    exact max_eq_left (min_le_left _ _)
  · show max 0 (min 0 (n.y + n.vy)) = 0
    exact max_eq_left (min_le_left _ _)

/-- C7: the per-tick state update is deterministic — running `N` frames of
the ambient loop from the same initial node states and bounds yields the
same node list (in particular the same positions), for any two random
streams and stream positions: randomness only feeds the edge-jitter draw
commands, never the per-tick node state. -/
theorem c7_run_deterministic (msin msqrt : α → α) (r1 r2 : ℕ → α) (w h : α)
    (nodes : List (Node α)) (N : ℕ) (k1 k2 : ℕ) :
    (ambientRun msin msqrt r1 w h N nodes k1).1 =
      (ambientRun msin msqrt r2 w h N nodes k2).1 := by
  induction N generalizing nodes k1 k2 with
  | zero => rfl
  | succ n ih => exact ih (nodes.map (Node.update msin w h)) _ _

/-- C10 counterexample: the initial per-axis speed is not always strictly
below `0.25` — when `Math.random()` returns exactly `0` (a legal draw,
`0 ≤ 0 < 1`), the constructor yields `vx = -0.25`, whose magnitude equals
`0.25`. -/
theorem c10_counterexample :
    (0:ℚ) ≤ 0 ∧ (0:ℚ) < 1 ∧
    |(newNode (0:ℚ) 0 0 0 0 0 0).vx| = 1/4 ∧
    ¬ |(newNode (0:ℚ) 0 0 0 0 0 0).vx| < 1/4 := by
  have hvx : (newNode (0:ℚ) 0 0 0 0 0 0).vx = -(1/4) := by norm_num [newNode]
  rw [hvx, abs_neg, abs_of_nonneg (by norm_num : (0:ℚ) ≤ 1/4)]
  norm_num

/-- C10 (amended): `Node.update` only ever negates a velocity component,
so the per-axis speed after any number of ticks equals the initial one;
and the constructor's initial per-axis speed is at most `0.25` (with
equality only for the random draw `0`). -/
theorem c10_speed_invariant (msin : α → α) (w h : α) (n : Node α) (k : ℕ)
    (mpi x y r1 r2 r3 r4 : α)
    (h1 : 0 ≤ r1) (h2 : r1 < 1) (h3 : 0 ≤ r2) (h4 : r2 < 1) :
    |(tickN msin w h k n).vx| = |n.vx| ∧
    |(tickN msin w h k n).vy| = |n.vy| ∧
    |(newNode mpi x y r1 r2 r3 r4).vx| ≤ 1/4 ∧
    |(newNode mpi x y r1 r2 r3 r4).vy| ≤ 1/4 := by
  have habs : ∀ m : Node α,
      |(m.update msin w h).vx| = |m.vx| ∧ |(m.update msin w h).vy| = |m.vy| := by
    intro m
    constructor
    · show |if m.x + m.vx < 0 ∨ w < m.x + m.vx then -m.vx else m.vx| = |m.vx|
      split
      · exact abs_neg _
      · rfl
    · show |if m.y + m.vy < 0 ∨ h < m.y + m.vy then -m.vy else m.vy| = |m.vy|
      split
      · exact abs_neg _
      · rfl
  have hiter : ∀ j, |(tickN msin w h j n).vx| = |n.vx| ∧
      |(tickN msin w h j n).vy| = |n.vy| := by
    intro j
    induction j with
    | zero => exact ⟨rfl, rfl⟩
    | succ j ih =>
      have hs := habs (tickN msin w h j n)
      exact ⟨hs.1.trans ih.1, hs.2.trans ih.2⟩
  have hbound : ∀ r : α, 0 ≤ r → r < 1 → |(r - 1/2) * (1/2)| ≤ 1/4 := by
    intro r hr0 hr1
    rw [abs_mul, abs_of_nonneg (by norm_num : (0:α) ≤ 1/2)]
    have hm : |r - 1/2| ≤ 1/2 := abs_le.mpr ⟨by linarith, by linarith⟩
    linarith
  exact ⟨(hiter k).1, (hiter k).2, hbound r1 h1 h2, hbound r2 h3 h4⟩

/-- Witness for C10 (amended) at the node `nC10` over a `100 × 100` canvas,
5 ticks, and constructor draws `r1 = 0`, `r2 = 1/2`. -/
theorem c10_witness :
    |(tickN (fun t : ℚ => t) 100 100 5 nC10).vx| = |nC10.vx| ∧
    |(tickN (fun t : ℚ => t) 100 100 5 nC10).vy| = |nC10.vy| ∧
    |(newNode (0:ℚ) 0 0 0 (1/2) 0 0).vx| ≤ 1/4 ∧
    |(newNode (0:ℚ) 0 0 0 (1/2) 0 0).vy| ≤ 1/4 :=
  c10_speed_invariant (fun t : ℚ => t) 100 100 nC10 5 0 0 0 0 (1/2) 0 0
    (by norm_num) (by norm_num) (by norm_num) (by norm_num)

/-- Unfolding of `pairEdge` when the distance test passes. -/
theorem pairEdge_of_lt (msqrt : α → α) (r1 r2 : α) (a b : Node α)
    (hlt : msqrt (dist2 a b) < 150) :
    pairEdge msqrt r1 r2 a b = some
      { x1 := a.x, y1 := a.y
        midX := (a.x + b.x) / 2 + (r1 - 1/2) * 10
        midY := (a.y + b.y) / 2 + (r2 - 1/2) * 10
        x2 := b.x, y2 := b.y
        globalAlpha := (150 - msqrt (dist2 a b)) / 150 * avgEnergy a b * (1/2)
        strokeAlpha := (150 - msqrt (dist2 a b)) / 150 * avgEnergy a b
        lineWidth := avgEnergy a b * 2 } := by
  simp only [pairEdge]
  rw [if_pos hlt]

/-- Unfolding of `pairEdge` when the distance test fails. -/
theorem pairEdge_of_ge (msqrt : α → α) (r1 r2 : α) (a b : Node α)
    (hge : 150 ≤ msqrt (dist2 a b)) :
    pairEdge msqrt r1 r2 a b = none := by
  simp only [pairEdge]
  rw [if_neg (not_lt.mpr hge)]

/-- C2 counterexample: no proportionality constant `c` makes the stroke
width of every drawn edge equal to `(150 - distance)/150` times the average
energy times `c`.  Two concrete pairs of unit-energy nodes, at Euclidean
distances `0` and `75`, both receive stroke width `2`, which would force
`c = 2` and `c = 4` respectively — the source sets `lineWidth = energy * 2`
with no distance factor. -/
theorem c2_counterexample :
    ¬ ∃ c : ℝ, ∀ (a b : Node ℝ) (r1 r2 : ℝ) (e : EdgeCmd ℝ),
        pairEdge Real.sqrt r1 r2 a b = some e →
        e.lineWidth = (150 - Real.sqrt (dist2 a b)) / 150 * avgEnergy a b * c := by
  rintro ⟨c, hc⟩
  have hd0 : dist2 aE bE0 = 0 := by norm_num [dist2, aE, bE0]
  have hs0 : Real.sqrt (dist2 aE bE0) = 0 := by rw [hd0, Real.sqrt_zero]
  have hd75 : dist2 aE bE75 = 5625 := by norm_num [dist2, aE, bE75]
  have hs75 : Real.sqrt (dist2 aE bE75) = 75 := by
    rw [hd75, show (5625:ℝ) = 75 ^ 2 by norm_num,
      Real.sqrt_sq (by norm_num : (0:ℝ) ≤ 75)]
  have h1 := hc aE bE0 0 0 _
    (pairEdge_of_lt Real.sqrt 0 0 aE bE0 (by rw [hs0]; norm_num))
  have h2 := hc aE bE75 0 0 _
    (pairEdge_of_lt Real.sqrt 0 0 aE bE75 (by rw [hs75]; norm_num))
  have hE0 : avgEnergy aE bE0 = 1 := by norm_num [avgEnergy, aE, bE0]
  have hE75 : avgEnergy aE bE75 = 1 := by norm_num [avgEnergy, aE, bE75]
  rw [hs0, hE0] at h1
  rw [hs75, hE75] at h2
  norm_num at h1 h2
  linarith

/-- C2 (amended): for every unordered pair of nodes, if the Euclidean
distance is at least `150` no edge is drawn; if it is below `150` an edge
is drawn whose stroke opacity is `(150 - distance)/150` times the average
energy (with `globalAlpha` additionally halved) — maximal, and equal to the
average energy, at distance `0` — while the stroke width is `2` times the
average energy, independent of the distance. -/
theorem c2_edge_attributes (a b : Node ℝ) (r1 r2 : ℝ)
    (he : 0 ≤ avgEnergy a b) :
    (150 ≤ Real.sqrt (dist2 a b) → pairEdge Real.sqrt r1 r2 a b = none) ∧
    (Real.sqrt (dist2 a b) < 150 →
      ∃ e : EdgeCmd ℝ, pairEdge Real.sqrt r1 r2 a b = some e ∧
        e.strokeAlpha = (150 - Real.sqrt (dist2 a b)) / 150 * avgEnergy a b ∧
        e.globalAlpha = e.strokeAlpha * (1/2) ∧
        e.lineWidth = avgEnergy a b * 2 ∧
        e.strokeAlpha ≤ avgEnergy a b) ∧
    (dist2 a b = 0 →
      ∃ e : EdgeCmd ℝ, pairEdge Real.sqrt r1 r2 a b = some e ∧
        e.strokeAlpha = avgEnergy a b) := by
  refine ⟨fun hge => pairEdge_of_ge Real.sqrt r1 r2 a b hge, ?_, ?_⟩
  · intro hlt
    refine ⟨_, pairEdge_of_lt Real.sqrt r1 r2 a b hlt, rfl, rfl, rfl, ?_⟩
    have hd0 : 0 ≤ Real.sqrt (dist2 a b) := Real.sqrt_nonneg _
    have hfrac : (150 - Real.sqrt (dist2 a b)) / 150 ≤ 1 := by
      rw [div_le_one (by norm_num : (0:ℝ) < 150)]
      linarith
    calc (150 - Real.sqrt (dist2 a b)) / 150 * avgEnergy a b
        ≤ 1 * avgEnergy a b := mul_le_mul_of_nonneg_right hfrac he
      _ = avgEnergy a b := one_mul _
  · intro h0
    have hs : Real.sqrt (dist2 a b) = 0 := by rw [h0, Real.sqrt_zero]
    refine ⟨_, pairEdge_of_lt Real.sqrt r1 r2 a b (by rw [hs]; norm_num), ?_⟩
    show (150 - Real.sqrt (dist2 a b)) / 150 * avgEnergy a b = avgEnergy a b
    rw [hs]
    norm_num

/-- Witness for C2 (amended) at the unit-energy nodes `aE` and `bE5`
(Euclidean distance `5`): the drawn edge has stroke opacity `29/30` and
stroke width `2`. -/
theorem c2_witness :
    ∃ e : EdgeCmd ℝ, pairEdge Real.sqrt (1/2) (1/2) aE bE5 = some e ∧
      e.strokeAlpha = 29/30 ∧ e.lineWidth = 2 := by
  have hd : dist2 aE bE5 = 25 := by norm_num [dist2, aE, bE5]
  have hs : Real.sqrt (dist2 aE bE5) = 5 := by
    rw [hd, show (25:ℝ) = 5 ^ 2 by norm_num, Real.sqrt_sq (by norm_num : (0:ℝ) ≤ 5)]
  have hE : avgEnergy aE bE5 = 1 := by norm_num [avgEnergy, aE, bE5]
  obtain ⟨_, h2, _⟩ := c2_edge_attributes aE bE5 (1/2) (1/2) (by rw [hE]; norm_num)
  obtain ⟨e, heq, hsa, _, hlw, _⟩ := h2 (by rw [hs]; norm_num)
  refine ⟨e, heq, ?_, ?_⟩
  · rw [hsa, hs, hE]
    norm_num
  · rw [hlw, hE]
    norm_num

end App

